import Mathlib

/-!
# Verification of the finance_app input normalizer and ratio calculator

A shallow embedding of `src/finance_app.py`.  Python floats are modelled by
`ℚ` (every value the application manipulates is produced by exact decimal
literals and divisions, so rational arithmetic matches the observable
contract of the spec: exact zeros, exact products, exact quotients).
Python functions that can raise (`float(...)`, `int(...)` on malformed text)
return `Option`.  Raw form data is a partial map from field names to strings
(`Form`), `None` standing for an absent field, exactly as `form.get` yields.

`float(s)` / `int(s)` of CPython are modelled on the fragment the
application's data lives in: optional surrounding whitespace, an optional
sign, and a finite decimal literal (digits, optional point).  Exotic inputs
accepted by CPython (exponents, `inf`/`nan`, underscores, non-ASCII digits)
are outside the model.
-/

namespace FinanceApp

/-- The six characters stripped by Python's default `str.strip()`. -/
def pyIsSpace (c : Char) : Bool :=
  c == ' ' || c == '\t' || c == '\n' || c == '\r' || c == Char.ofNat 11 || c == Char.ofNat 12

/-- `str.strip()` on the character list: drop whitespace from both ends. -/
def stripL (l : List Char) : List Char :=
  (l.dropWhile pyIsSpace).rdropWhile pyIsSpace

/-- `str.strip()`. -/
def pyStrip (s : String) : String :=
  String.mk (stripL s.toList)

/-- `str.replace(c, "")` on the character list. -/
def removeCharL (c : Char) (l : List Char) : List Char :=
  l.filter (fun x => x != c)

/-- `str.replace(c, "")` for a single-character pattern. -/
def removeChar (c : Char) (s : String) : String :=
  String.mk (removeCharL c s.toList)

/-- The cleanup shared by `_to_float` and `_to_int`:
`str(v).strip().replace(",", "").replace("，", "").replace(" ", "")`. -/
def cleanStr (s : String) : String :=
  removeChar ' ' (removeChar '，' (removeChar ',' (pyStrip s)))

/-- Value of a list of decimal digit characters. -/
def digitsVal (l : List Char) : ℕ :=
  l.foldl (fun a c => 10 * a + (c.toNat - 48)) 0

/-- Unsigned decimal literal: `digits`, `digits.`, `digits.digits` or
`.digits` (at least one digit overall), as accepted by CPython `float`. -/
def parseUnsigned (l : List Char) : Option ℚ :=
  let ip := l.takeWhile Char.isDigit
  let rest := l.dropWhile Char.isDigit
  match rest with
  | [] => if ip.isEmpty then none else some (digitsVal ip : ℚ)
  | '.' :: frac =>
    if frac.all Char.isDigit && !(ip.isEmpty && frac.isEmpty) then
      some ((digitsVal ip : ℚ) + (digitsVal frac : ℚ) / (10 : ℚ) ^ frac.length)
    else none
  | _ => none

/-- Optional sign in front of an unsigned decimal literal. -/
def parseSigned (l : List Char) : Option ℚ :=
  match l with
  | '+' :: r => parseUnsigned r
  | '-' :: r => (parseUnsigned r).map (fun q => -q)
  | _ => parseUnsigned l

/-- Model of CPython `float(s)` on the finite-decimal fragment: `float`
itself tolerates surrounding whitespace, then reads a signed literal. -/
def pyFloat? (s : String) : Option ℚ :=
  parseSigned (stripL s.toList)

/-- Truncation toward zero, the behaviour of CPython `int(x)` on a float. -/
def truncQ (q : ℚ) : ℤ :=
  if 0 ≤ q then ⌊q⌋ else ⌈q⌉

/-- `_to_float` (src/finance_app.py:84-90): `None` defaults to `0.0`, the
cleaned-empty string defaults to `0.0`, otherwise `float(s)` (which raises,
i.e. `none`, on non-numeric remainders). -/
def _to_float (v : Option String) : Option ℚ :=
  match v with
  | none => some 0
  | some sv =>
    let s := cleanStr sv
    if s = "" then some 0 else pyFloat? s

/-- `_to_int` (src/finance_app.py:92-98): same cleanup, then
`int(float(s))`, tolerating inputs like `"12.0"`. -/
def _to_int (v : Option String) : Option ℤ :=
  match v with
  | none => some 0
  | some sv =>
    let s := cleanStr sv
    if s = "" then some 0 else (pyFloat? s).map truncQ

/-- `MONEY_FIELDS` (src/finance_app.py:77-82). -/
def MONEY_FIELDS : List String :=
  ["sales", "gross_profit", "net_income",
   "total_assets", "equity",
   "current_assets", "current_liabilities",
   "liabilities"]

/-- A raw form: partial map from field name to submitted string,
as read by `form.get`. -/
abbrev Form := String → Option String

/-- The dict produced by the normalizer: the eight money fields plus the
integer employee count. -/
structure FinDict where
  sales : ℚ
  gross_profit : ℚ
  net_income : ℚ
  total_assets : ℚ
  equity : ℚ
  current_assets : ℚ
  current_liabilities : ℚ
  liabilities : ℚ
  employees : ℤ
deriving DecidableEq, Repr

/-- Lookup of a money field by its form name (`d[k]` for
`k ∈ MONEY_FIELDS`). -/
def FinDict.get (d : FinDict) : String → ℚ
  | "sales" => d.sales
  | "gross_profit" => d.gross_profit
  | "net_income" => d.net_income
  | "total_assets" => d.total_assets
  | "equity" => d.equity
  | "current_assets" => d.current_assets
  | "current_liabilities" => d.current_liabilities
  | "liabilities" => d.liabilities
  | _ => 0

/-- `parse_financial_form_with_unit` (src/finance_app.py:100-113): coerce
`form.get("unit", "1")` to float (raising on non-numeric text), fall back
to `1` unless it is `1`, `1000` or `1000000`, scale each money field by it,
and coerce `employees` without scaling. -/
def parse_financial_form_with_unit (form : Form) : Option FinDict := do
  let u0 ← _to_float (some ((form "unit").getD "1"))
  let unit := if u0 = 1 ∨ u0 = 1000 ∨ u0 = 1000000 then u0 else 1
  let sales ← _to_float (form "sales")
  let gross_profit ← _to_float (form "gross_profit")
  let net_income ← _to_float (form "net_income")
  let total_assets ← _to_float (form "total_assets")
  let equity ← _to_float (form "equity")
  let current_assets ← _to_float (form "current_assets")
  let current_liabilities ← _to_float (form "current_liabilities")
  let liabilities ← _to_float (form "liabilities")
  let employees ← _to_int (form "employees")
  pure
    { sales := sales * unit
      gross_profit := gross_profit * unit
      net_income := net_income * unit
      total_assets := total_assets * unit
      equity := equity * unit
      current_assets := current_assets * unit
      current_liabilities := current_liabilities * unit
      liabilities := liabilities * unit
      employees := employees }

/-- The money-field dict built by the edit handler
(src/finance_app.py:312-313): the same coercions, no unit scaling. -/
def parse_financial_form_edit (form : Form) : Option FinDict := do
  let sales ← _to_float (form "sales")
  let gross_profit ← _to_float (form "gross_profit")
  let net_income ← _to_float (form "net_income")
  let total_assets ← _to_float (form "total_assets")
  let equity ← _to_float (form "equity")
  let current_assets ← _to_float (form "current_assets")
  let current_liabilities ← _to_float (form "current_liabilities")
  let liabilities ← _to_float (form "liabilities")
  let employees ← _to_int (form "employees")
  pure
    { sales := sales
      gross_profit := gross_profit
      net_income := net_income
      total_assets := total_assets
      equity := equity
      current_assets := current_assets
      current_liabilities := current_liabilities
      liabilities := liabilities
      employees := employees }

/-- The dict of six derived ratios. -/
structure Ratios where
  gross_profit_margin : ℚ
  roe : ℚ
  current_ratio : ℚ
  debt_ratio : ℚ
  sales_per_employee : ℚ
  productivity : ℚ
deriving DecidableEq, Repr

/-- `calc` (src/finance_app.py:118-126), on the shape the two normalizer
paths produce.  Python's `x if d[k] else 0` guards are the
`if _ ≠ 0` tests (`0`/`0.0` are the falsy numeric values). -/
def calcRatios (d : FinDict) : Ratios :=
  { gross_profit_margin := if d.sales ≠ 0 then d.gross_profit / d.sales else 0
    roe := if d.equity ≠ 0 then d.net_income / d.equity else 0
    current_ratio :=
      if d.current_liabilities ≠ 0 then d.current_assets / d.current_liabilities else 0
    debt_ratio := if d.total_assets ≠ 0 then d.liabilities / d.total_assets else 0
    sales_per_employee :=
      if (d.employees : ℚ) ≠ 0 then d.sales / (d.employees : ℚ) else 0
    productivity :=
      if (d.employees : ℚ) ≠ 0 then d.net_income / (d.employees : ℚ) else 0 }

/-! ## Dict-level view of `calc`

`calc` receives a Python dict.  To state that it neither fails nor writes to
its argument, its body is translated once more at the level of string-keyed
mappings: a lookup `d[k]` is `dget` (raising `KeyError`, i.e. `none`, when
the key is absent), and the call returns the pair (fresh result dict, state
of the argument after the body ran).  The body is a single dict display of
reads, so the final state written in the translation is the argument
itself. -/

/-- A Python dict with string keys and numeric values. -/
abbrev Dict := List (String × ℚ)

/-- `d[k]`: the first binding of `k`, `none` for a `KeyError`. -/
def dget (d : Dict) (k : String) : Option ℚ :=
  (d.find? (fun p => p.1 == k)).map Prod.snd

/-- One entry of the dict display of `calc`:
`d[num]/d[den] if d[den] else 0`, in Python's evaluation order (the
condition `d[den]` is read first; the numerator is only read when the
denominator is truthy). -/
def ratioEntry (d : Dict) (num den : String) : Option ℚ := do
  let dv ← dget d den
  if dv ≠ 0 then
    let nv ← dget d num
    pure (nv / dv)
  else
    pure 0

/-- `calc` (src/finance_app.py:118-126) at the dict level: the six entries
in source order, paired with the state of the argument after the call. -/
def calcDict (d : Dict) : Option (Dict × Dict) := do
  let gpm ← ratioEntry d "gross_profit" "sales"
  let roe ← ratioEntry d "net_income" "equity"
  let cr ← ratioEntry d "current_assets" "current_liabilities"
  let dr ← ratioEntry d "liabilities" "total_assets"
  let spe ← ratioEntry d "sales" "employees"
  let pr ← ratioEntry d "net_income" "employees"
  pure ([("gross_profit_margin", gpm), ("roe", roe), ("current_ratio", cr),
         ("debt_ratio", dr), ("sales_per_employee", spe), ("productivity", pr)], d)

/-! ## The two write paths -/

/-- The row a create or edit writes to `financials` (identity, owner and
timestamps are assigned by storage and are outside this model). -/
structure FinRow where
  company_name : String
  industry : String
  year : ℤ
  data : FinDict
  ratios : Ratios
deriving DecidableEq, Repr

/-- The POST branch of `index` (src/finance_app.py:177-217): normalize with
the unit, read the text fields, coerce the year, recompute the six ratios
with `calc`, and write all of it in one INSERT. -/
def index_post (form : Form) : Option FinRow := do
  let d ← parse_financial_form_with_unit form
  let company_name := pyStrip ((form "company_name").getD "")
  let industry := pyStrip ((form "industry").getD "")
  let year ← _to_int (form "year")
  pure { company_name, industry, year, data := d, ratios := calcRatios d }

/-- The POST branch of `edit_data` (src/finance_app.py:309-344): coerce the
money fields without a unit, coerce employees and the year, recompute the
six ratios with `calc`, and write all of it in one UPDATE. -/
def edit_post (form : Form) : Option FinRow := do
  let d ← parse_financial_form_edit form
  let year ← _to_int (form "year")
  let company_name := pyStrip ((form "company_name").getD "")
  let industry := pyStrip ((form "industry").getD "")
  pure { company_name, industry, year, data := d, ratios := calcRatios d }

/-! ## Comments -/

/-- A row of the `comments` table (`created_at` is storage-assigned and
outside the model). -/
structure Comment where
  id : ℕ
  financial_id : ℕ
  user_id : String
  content : String
deriving DecidableEq, Repr

/-- `add_comment` (src/finance_app.py:358-382) as a transform of the
comments store: redirect to login without a session, 404 when the record
is not the user's, redirect without writing when the stripped content is
empty, otherwise insert (the fresh id comes from storage). -/
def add_comment (sessionUser : Option String) (fins : List (ℕ × String))
    (comments : List Comment) (fid : ℕ) (form : Form) (newId : ℕ) : List Comment :=
  match sessionUser with
  | none => comments
  | some u =>
    if (fins.find? (fun p => p.1 == fid && p.2 == u)).isNone then comments
    else
      let content := pyStrip ((form "content").getD "")
      if content = "" then comments
      else comments ++ [⟨newId, fid, u, content⟩]

/-- `edit_comment` (src/finance_app.py:384-408) as a transform of the
comments store: redirect to login without a session, 404 when the comment
is not the user's, redirect without writing when the stripped content is
empty, otherwise replace the content of that comment. -/
def edit_comment (sessionUser : Option String) (comments : List Comment)
    (cid : ℕ) (form : Form) : List Comment :=
  match sessionUser with
  | none => comments
  | some u =>
    match comments.find? (fun c => c.id == cid && c.user_id == u) with
    | none => comments
    | some _ =>
      let content := pyStrip ((form "content").getD "")
      if content = "" then comments
      else comments.map (fun c =>
        if c.id == cid && c.user_id == u then { c with content := content } else c)

/-! ## Concrete inputs for witnesses and counterexamples -/

/-- Removal of the three thousands-separator characters alone (the
`replace` part of the cleanup, without the strip). -/
def stripSeps (s : String) : String :=
  removeChar ' ' (removeChar '，' (removeChar ',' s))

/-- Builds a `Form` from an association list. -/
def formOf (l : List (String × String)) : Form :=
  fun k => (l.find? (fun p => p.1 == k)).map Prod.snd

/-- A form whose unit field is the non-numeric string `"abc"`. -/
def formUnitAbc : Form :=
  formOf [("sales", "10"), ("unit", "abc")]

/-- The create-scenario form of the spec: the eight magnitudes, ten
employees, unit `1000`. -/
def formScenario : Form :=
  formOf [("sales", "1000000"), ("gross_profit", "250000"), ("net_income", "100000"),
          ("equity", "500000"), ("total_assets", "2000000"), ("current_assets", "300000"),
          ("current_liabilities", "150000"), ("liabilities", "800000"),
          ("employees", "10"), ("unit", "1000")]

/-- The normalized record of the scenario form, with the unit products
still unreduced. -/
def dictScenario : FinDict :=
  ⟨1000000 * 1000, 250000 * 1000, 100000 * 1000, 2000000 * 1000, 500000 * 1000,
   300000 * 1000, 150000 * 1000, 800000 * 1000, 10⟩

/-- The row the create flow writes for the scenario form (text fields
absent, year absent). -/
def rowScenario : FinRow :=
  ⟨"", "", 0, dictScenario, calcRatios dictScenario⟩

/-- A small form with a unit `"7"` that is numeric but not one of the
three accepted multipliers. -/
def formUnit7 : Form :=
  formOf [("sales", "2,000"), ("unit", "7")]

/-- The record the normalizer produces from `formUnit7` (the unit falls
back to multiplier `1`). -/
def dictUnit7 : FinDict :=
  ⟨2000 * 1, 0 * 1, 0 * 1, 0 * 1, 0 * 1, 0 * 1, 0 * 1, 0 * 1, 0⟩

/-- A form carrying only an employees field written as a float string,
and the largest unit. -/
def formEmployees : Form := formOf [("employees", "12.0"), ("unit", "1000000")]

/-- A form with no fields at all. -/
def formEmpty : Form := fun _ => none

/-- The dict `calc` builds from `dictC6`. -/
def dictC6out : Dict :=
  [("gross_profit_margin", 25 / 100), ("roe", 10 / 50), ("current_ratio", 30 / 15),
   ("debt_ratio", 80 / 200), ("sales_per_employee", 100 / 10), ("productivity", 10 / 10)]

/-- Separator removal at the list level (the composition of the three
`replace` passes of the cleanup). -/
def rmAllL (l : List Char) : List Char :=
  removeCharL ' ' (removeCharL '，' (removeCharL ',' l))

/-- An all-zero normalized record. -/
def dictZero : FinDict :=
  ⟨0, 0, 0, 0, 0, 0, 0, 0, 0⟩

/-- A complete dict-level input for `calc`. -/
def dictC6 : Dict :=
  [("sales", 100), ("gross_profit", 25), ("net_income", 10), ("total_assets", 200),
   ("equity", 50), ("current_assets", 30), ("current_liabilities", 15),
   ("liabilities", 80), ("employees", 10)]

/-! ## Helper lemmas on stripping and separator removal -/

theorem rdropWhile_append_of_pos {p : Char → Bool} {l b : List Char}
    (hb : ∀ c ∈ b, p c) : (l ++ b).rdropWhile p = l.rdropWhile p := by
  unfold List.rdropWhile
  rw [List.reverse_append, List.dropWhile_append_of_pos (by simpa using hb)]

theorem stripL_append_of_pos {a m : List Char} (ha : ∀ c ∈ a, pyIsSpace c) :
    stripL (a ++ m) = stripL m := by
  unfold stripL
  rw [List.dropWhile_append_of_pos ha]

theorem stripL_append_ws {m b : List Char} (hb : ∀ c ∈ b, pyIsSpace c) :
    stripL (m ++ b) = stripL m := by
  unfold stripL
  rw [List.dropWhile_append]
  by_cases hm : (m.dropWhile pyIsSpace).isEmpty
  · rw [if_pos hm]
    have h1 : b.dropWhile pyIsSpace = [] := List.dropWhile_eq_nil_iff.mpr hb
    have h2 : m.dropWhile pyIsSpace = [] := by simpa [List.isEmpty_iff] using hm
    simp [h1, h2]
  · rw [if_neg hm]
    exact rdropWhile_append_of_pos hb

theorem rdropWhile_split (m : List Char) :
    m = m.rdropWhile pyIsSpace ++ (m.reverse.takeWhile pyIsSpace).reverse := by
  unfold List.rdropWhile
  rw [← List.reverse_append, List.takeWhile_append_dropWhile, List.reverse_reverse]

theorem stripL_decomp (l : List Char) :
    ∃ a b, l = a ++ stripL l ++ b ∧ (∀ c ∈ a, pyIsSpace c) ∧ (∀ c ∈ b, pyIsSpace c) := by
  refine ⟨l.takeWhile pyIsSpace,
    ((l.dropWhile pyIsSpace).reverse.takeWhile pyIsSpace).reverse, ?_, ?_, ?_⟩
  · rw [List.append_assoc, stripL, ← rdropWhile_split (l.dropWhile pyIsSpace),
      List.takeWhile_append_dropWhile]
  · intro c hc
    exact List.mem_takeWhile_imp hc
  · intro c hc
    rw [List.mem_reverse] at hc
    exact List.mem_takeWhile_imp hc

theorem mem_of_mem_stripL {c : Char} {l : List Char} (h : c ∈ stripL l) : c ∈ l := by
  obtain ⟨a, b, hl, -, -⟩ := stripL_decomp l
  rw [hl]
  simp [h]

theorem stripL_eq_nil_of_ws {l : List Char} (h : ∀ c ∈ l, pyIsSpace c) :
    stripL l = [] := by
  unfold stripL
  rw [List.dropWhile_eq_nil_iff.mpr h]
  rfl

theorem stripL_head_not_ws (l : List Char) :
    List.dropWhile pyIsSpace (stripL l) = stripL l := by
  rcases hm : stripL l with _ | ⟨c, t⟩
  · rfl
  · have hpre : stripL l <+: l.dropWhile pyIsSpace := List.rdropWhile_prefix _ _
    rw [hm] at hpre
    obtain ⟨r, hr⟩ := hpre
    have h0 : 0 < (l.dropWhile pyIsSpace).length := by
      rw [← hr]; simp
    have hc : ¬ pyIsSpace ((l.dropWhile pyIsSpace).get ⟨0, h0⟩) :=
      List.dropWhile_get_zero_not pyIsSpace l h0
    have hget : (l.dropWhile pyIsSpace).get ⟨0, h0⟩ = c := by
      simp [← hr]
    rw [hget] at hc
    rw [List.dropWhile_cons_of_neg hc]

theorem stripL_idem (l : List Char) : stripL (stripL l) = stripL l := by
  conv_lhs => rw [stripL, stripL_head_not_ws]
  exact List.rdropWhile_idempotent _ _

theorem cleanStr_eq (s : String) :
    cleanStr s = String.mk (rmAllL (stripL s.toList)) := rfl

theorem stripSeps_eq (s : String) : stripSeps s = String.mk (rmAllL s.toList) := rfl

theorem pyFloat_mk (l : List Char) : pyFloat? (String.mk l) = parseSigned (stripL l) := rfl

theorem mk_eq_empty_iff (l : List Char) : String.mk l = "" ↔ l = [] := by
  constructor
  · intro h
    exact congrArg String.data h
  · rintro rfl
    rfl

theorem mem_rmAllL {c : Char} {l : List Char} :
    c ∈ rmAllL l ↔ c ∈ l ∧ c ≠ ',' ∧ c ≠ '，' ∧ c ≠ ' ' := by
  simp only [rmAllL, removeCharL, List.mem_filter, bne_iff_ne, ne_eq, and_assoc]

theorem rmAllL_append (a b : List Char) : rmAllL (a ++ b) = rmAllL a ++ rmAllL b := by
  simp [rmAllL, removeCharL, List.filter_append]

theorem rmAllL_eq_self {l : List Char} (h : ∀ c ∈ l, c ≠ ',' ∧ c ≠ '，' ∧ c ≠ ' ') :
    rmAllL l = l := by
  have h1 : List.filter (fun x => x != ',') l = l :=
    List.filter_eq_self.mpr (fun a ha => by simpa using (h a ha).1)
  have h2 : List.filter (fun x => x != '，') l = l :=
    List.filter_eq_self.mpr (fun a ha => by simpa using (h a ha).2.1)
  have h3 : List.filter (fun x => x != ' ') l = l :=
    List.filter_eq_self.mpr (fun a ha => by simpa using (h a ha).2.2)
  unfold rmAllL removeCharL
  rw [h1, h2, h3]

theorem rmAll_stripL_rmAll (l : List Char) :
    rmAllL (stripL (rmAllL l)) = stripL (rmAllL l) := by
  apply rmAllL_eq_self
  intro c hc
  have := mem_of_mem_stripL hc
  exact (mem_rmAllL.mp this).2

theorem stripL_rmAll_stripL (l : List Char) :
    stripL (rmAllL l) = stripL (rmAllL (stripL l)) := by
  obtain ⟨a, b, hl, ha, hb⟩ := stripL_decomp l
  conv_lhs => rw [hl]
  rw [rmAllL_append, rmAllL_append, List.append_assoc]
  rw [stripL_append_of_pos (fun c hc => ha c (mem_rmAllL.mp hc).1)]
  rw [stripL_append_ws (fun c hc => hb c (mem_rmAllL.mp hc).1)]

/-! ## The claims -/

/-- C1 (counterexample). The claim says a malformed unit string such as
`"abc"` silently falls back to multiplier 1 and normalization still
succeeds.  On the code it does not: the sales field alone coerces fine,
but `parse_financial_form_with_unit` raises (`none`) because
`_to_float("abc")` raises inside the unit coercion. -/
theorem unit_abc_fails :
    _to_float (formUnitAbc "sales") = some 10 ∧
    parse_financial_form_with_unit formUnitAbc = none := by
  constructor <;> decide

/-- C1 (amended). When the unit string fails float coercion, normalization
fails instead of falling back.  When the unit string coerces to `u` (this
includes a missing unit, which defaults to `"1"`, and cleaned-empty or
numeric-but-unaccepted strings such as `""` or `"7"`), every money field of
a successful normalization is its cleaned numeric value times `u` when
`u ∈ {1, 1000, 1000000}` and times `1` otherwise. -/
theorem unit_fallback_amended (form : Form) :
    (_to_float (some ((form "unit").getD "1")) = none →
      parse_financial_form_with_unit form = none) ∧
    (∀ u d, _to_float (some ((form "unit").getD "1")) = some u →
      parse_financial_form_with_unit form = some d →
      ∀ k ∈ MONEY_FIELDS, ∃ q, _to_float (form k) = some q ∧
        FinDict.get d k = q * (if u = 1 ∨ u = 1000 ∨ u = 1000000 then u else 1)) := by
  constructor
  · intro h
    simp [parse_financial_form_with_unit, h]
  · intro u d hu hd
    simp only [parse_financial_form_with_unit, bind, Option.bind_eq_some, Option.pure_def,
      Option.some.injEq] at hd
    obtain ⟨u', hu', s, hs, gp, hgp, ni, hni, ta, hta, eq, heq, ca, hca, cl, hcl, li, hli,
      emp, hemp, hrow⟩ := hd
    rw [hu] at hu'
    cases hu'
    subst hrow
    intro k hk
    simp only [MONEY_FIELDS, List.mem_cons, List.not_mem_nil, or_false] at hk
    rcases hk with rfl | rfl | rfl | rfl | rfl | rfl | rfl | rfl
    · exact ⟨s, hs, rfl⟩
    · exact ⟨gp, hgp, rfl⟩
    · exact ⟨ni, hni, rfl⟩
    · exact ⟨ta, hta, rfl⟩
    · exact ⟨eq, heq, rfl⟩
    · exact ⟨ca, hca, rfl⟩
    · exact ⟨cl, hcl, rfl⟩
    · exact ⟨li, hli, rfl⟩

/-- C1 (witness): the amended theorem instantiated at a form whose unit is
the numeric but unaccepted string `"7"`. -/
theorem unit_fallback_amended_witness :
    ∃ q, _to_float (formUnit7 "sales") = some q ∧
      FinDict.get dictUnit7 "sales" =
        q * (if (7 : ℚ) = 1 ∨ (7 : ℚ) = 1000 ∨ (7 : ℚ) = 1000000 then 7 else 1) :=
  (unit_fallback_amended formUnit7).2 7 dictUnit7 (by decide) rfl "sales" (by decide)

/-- C2. Zero-guard law: whichever denominator (sales, equity,
current liabilities, total assets, employees) is exactly `0` makes the
corresponding ratio exactly `0`; `calcRatios` is a total function, so no
input raises. -/
theorem zero_guard (d : FinDict) :
    (d.sales = 0 → (calcRatios d).gross_profit_margin = 0) ∧
    (d.equity = 0 → (calcRatios d).roe = 0) ∧
    (d.current_liabilities = 0 → (calcRatios d).current_ratio = 0) ∧
    (d.total_assets = 0 → (calcRatios d).debt_ratio = 0) ∧
    (d.employees = 0 → (calcRatios d).sales_per_employee = 0 ∧
      (calcRatios d).productivity = 0) := by
  refine ⟨fun h => ?_, fun h => ?_, fun h => ?_, fun h => ?_, fun h => ⟨?_, ?_⟩⟩ <;>
    simp [calcRatios, h]

/-- C2 (witness): the all-zero record yields six exact zeros. -/
theorem zero_guard_witness :
    (calcRatios dictZero).gross_profit_margin = 0 ∧ (calcRatios dictZero).roe = 0 ∧
    (calcRatios dictZero).current_ratio = 0 ∧ (calcRatios dictZero).debt_ratio = 0 ∧
    (calcRatios dictZero).sales_per_employee = 0 ∧ (calcRatios dictZero).productivity = 0 := by
  obtain ⟨h1, h2, h3, h4, h5⟩ := zero_guard dictZero
  exact ⟨h1 rfl, h2 rfl, h3 rfl, h4 rfl, (h5 rfl).1, (h5 rfl).2⟩

/-- C3. The concrete create-flow scenario with unit `1000`: normalized
sales is `10^9` and the six ratios come out exactly as the spec lists
them. -/
theorem scenario_create_unit1000 :
    parse_financial_form_with_unit formScenario =
      some ⟨1000000000, 250000000, 100000000, 2000000000, 500000000,
            300000000, 150000000, 800000000, 10⟩ ∧
    calcRatios ⟨1000000000, 250000000, 100000000, 2000000000, 500000000,
            300000000, 150000000, 800000000, 10⟩ =
      ⟨0.25, 0.2, 2.0, 0.4, 100000000, 10000000⟩ := by
  constructor
  · have h : parse_financial_form_with_unit formScenario =
        some ⟨1000000 * 1000, 250000 * 1000, 100000 * 1000, 2000000 * 1000, 500000 * 1000,
              300000 * 1000, 150000 * 1000, 800000 * 1000, 10⟩ := rfl
    rw [h]; norm_num
  · norm_num [calcRatios, Ratios.mk.injEq]

/-- C4. For every raw form, the employees output of the normalizer is
exactly the integer coercion of the raw employees field: the unit
multiplier never touches it. -/
theorem employees_unscaled (form : Form) (d : FinDict)
    (h : parse_financial_form_with_unit form = some d) :
    _to_int (form "employees") = some d.employees := by
  simp only [parse_financial_form_with_unit, bind, Option.bind_eq_some, Option.pure_def,
    Option.some.injEq] at h
  obtain ⟨u, hu, s, hs, gp, hgp, ni, hni, ta, hta, eq, heq, ca, hca, cl, hcl, li, hli,
    emp, hemp, hd⟩ := h
  subst hd
  simpa using hemp

/-- C4 (witness): employees `"12.0"` with the largest unit still comes out
as the unscaled integer 12. -/
theorem employees_unscaled_witness :
    _to_int (formEmployees "employees") = some 12 := by
  have h : parse_financial_form_with_unit formEmployees =
      some ⟨0 * 1000000, 0 * 1000000, 0 * 1000000, 0 * 1000000, 0 * 1000000,
            0 * 1000000, 0 * 1000000, 0 * 1000000, truncQ ((12 : ℚ) + (0 : ℚ) / 10 ^ 1)⟩ := rfl
  have h12 : truncQ ((12 : ℚ) + (0 : ℚ) / 10 ^ 1) = 12 := by norm_num [truncQ]
  have := employees_unscaled formEmployees _ h
  simpa [h12] using this

/-- C5. The edit path coerces through the same `_to_float`/`_to_int` as the
create path but each stored magnitude equals the cleaned raw value with no
unit multiplier applied. -/
theorem edit_unscaled (form : Form) (d : FinDict)
    (h : parse_financial_form_edit form = some d) :
    (∀ k ∈ MONEY_FIELDS, _to_float (form k) = some (FinDict.get d k)) ∧
    _to_int (form "employees") = some d.employees := by
  simp only [parse_financial_form_edit, bind, Option.bind_eq_some, Option.pure_def,
    Option.some.injEq] at h
  obtain ⟨s, hs, gp, hgp, ni, hni, ta, hta, eq, heq, ca, hca, cl, hcl, li, hli,
    emp, hemp, hd⟩ := h
  subst hd
  refine ⟨fun k hk => ?_, hemp⟩
  simp only [MONEY_FIELDS, List.mem_cons, List.not_mem_nil, or_false] at hk
  rcases hk with rfl | rfl | rfl | rfl | rfl | rfl | rfl | rfl <;>
    simpa [FinDict.get]

/-- C5 (witness): editing with sales `"2,000"` stores the unscaled 2000
even though the form also carries a unit field, which the edit path never
reads. -/
theorem edit_unscaled_witness :
    _to_float (formUnit7 "sales") = some (FinDict.get ⟨2000, 0, 0, 0, 0, 0, 0, 0, 0⟩ "sales") :=
  (edit_unscaled formUnit7 ⟨2000, 0, 0, 0, 0, 0, 0, 0, 0⟩ rfl).1 "sales" (by decide)

/-- C6. `calc` is pure at the dict level: two calls on the same input
return the same result, and the argument mapping after either call is the
mapping that was passed in. -/
theorem calc_pure (d r₁ d₁ r₂ d₂ : Dict)
    (h₁ : calcDict d = some (r₁, d₁)) (h₂ : calcDict d = some (r₂, d₂)) :
    r₁ = r₂ ∧ d₁ = d ∧ d₂ = d := by
  have h12 := h₁.symm.trans h₂
  simp only [Option.some.injEq, Prod.mk.injEq] at h12
  simp only [calcDict, bind, Option.bind_eq_some, Option.pure_def, Option.some.injEq,
    Prod.mk.injEq] at h₁
  obtain ⟨a, -, b, -, c, -, e, -, f, -, g, -, hr1, hd1⟩ := h₁
  exact ⟨h12.1, hd1.symm, h12.2.symm.trans hd1.symm⟩

/-- C6 (witness): `calc` on a complete concrete dict succeeds and returns
the argument unchanged. -/
theorem calc_pure_witness :
    dictC6out = dictC6out ∧ dictC6 = dictC6 ∧ dictC6 = dictC6 :=
  calc_pure dictC6 dictC6out dictC6 dictC6out dictC6 rfl rfl

/-- C7. Numeric coercion: absent values and cleaned-empty strings coerce
to zero on both paths; the integer path is exactly the float path followed
by truncation toward zero; and `"12.0"` coerces to the integer 12. -/
theorem coercion_defaults :
    _to_float none = some 0 ∧ _to_int none = some 0 ∧
    (∀ s : String, cleanStr s = "" → _to_float (some s) = some 0 ∧ _to_int (some s) = some 0) ∧
    (∀ v : Option String, _to_int v = (_to_float v).map truncQ) ∧
    _to_int (some "12.0") = some 12 := by
  refine ⟨rfl, rfl, fun s hs => ?_, fun v => ?_, ?_⟩
  · constructor <;> simp [_to_float, _to_int, hs]
  · cases v with
    | none => simp [_to_float, _to_int, truncQ]
    | some s =>
      by_cases hs : cleanStr s = ""
      · simp [_to_float, _to_int, hs, truncQ]
      · simp [_to_float, _to_int, hs]
  · have h : _to_int (some "12.0") = some (truncQ ((12 : ℚ) + (0 : ℚ) / 10 ^ 1)) := rfl
    rw [h]; norm_num [truncQ]

/-- C7 (witness): the string `" ,"` cleans to empty and both coercions
default to zero. -/
theorem coercion_defaults_witness :
    _to_float (some " ,") = some 0 ∧ _to_int (some " ,") = some 0 :=
  coercion_defaults.2.2.1 " ," (by decide)

/-- C8. On every create and every edit, the six derived attributes written
in the row are exactly `calc` of the magnitudes written in that same row:
they are recomputed on every write. -/
theorem ratios_recomputed (form : Form) (row : FinRow) :
    (index_post form = some row → row.ratios = calcRatios row.data) ∧
    (edit_post form = some row → row.ratios = calcRatios row.data) := by
  constructor
  · intro h
    simp only [index_post, bind, Option.bind_eq_some, Option.pure_def,
      Option.some.injEq] at h
    obtain ⟨d, hd, y, hy, hrow⟩ := h
    subst hrow
    rfl
  · intro h
    simp only [edit_post, bind, Option.bind_eq_some, Option.pure_def,
      Option.some.injEq] at h
    obtain ⟨d, hd, y, hy, hrow⟩ := h
    subst hrow
    rfl

/-- C8 (witness): the create flow on the scenario form writes a row whose
stored ratios are `calc` of its stored magnitudes. -/
theorem ratios_recomputed_witness :
    rowScenario.ratios = calcRatios rowScenario.data :=
  (ratios_recomputed formScenario rowScenario).1 rfl

/-- C9 (counterexample). The general claim fails: `",\t,"` has its
separators removed to `"\t"`; coercing the original raises (the cleaned
remainder `"\t"` is non-empty and `float("\t")` fails) while coercing the
separator-free string yields `0` (it strips to empty). -/
theorem sep_strip_counterexample :
    stripSeps ",\t," = "\t" ∧ _to_float (some ",\t,") = none ∧
    _to_float (some "\t") = some 0 := by
  refine ⟨by decide, by decide, by decide⟩

/-- C9 (amended). `"1,000,000"` and `"1000000"` coerce to the same float,
and in general whenever a string coerces successfully, the same string
with its separators already removed coerces to the same value.  (Only
pathological strings whose cleaned remainder is non-empty whitespace, such
as `",\t,"`, break the unconditional version: they raise while their
separator-free form coerces to 0.) -/
theorem sep_strip_amended :
    _to_float (some "1,000,000") = _to_float (some "1000000") ∧
    ∀ (s : String) (q : ℚ), _to_float (some s) = some q →
      _to_float (some (stripSeps s)) = some q := by
  constructor
  · decide
  · intro s q h
    have hkey : rmAllL (stripL (rmAllL s.toList)) = stripL (rmAllL (stripL s.toList)) := by
      rw [rmAll_stripL_rmAll, stripL_rmAll_stripL]
    simp only [_to_float] at h ⊢
    rw [stripSeps_eq]
    rw [show cleanStr (String.mk (rmAllL s.toList)) =
      String.mk (rmAllL (stripL (rmAllL s.toList))) from rfl]
    rw [cleanStr_eq s] at h
    by_cases h1 : rmAllL (stripL s.toList) = []
    · rw [if_pos ((mk_eq_empty_iff _).mpr (by rw [hkey, h1]; exact stripL_eq_nil_of_ws (by simp)))]
      rw [if_pos ((mk_eq_empty_iff _).mpr h1)] at h
      exact h
    · rw [if_neg (by rw [mk_eq_empty_iff]; exact h1)] at h
      rw [pyFloat_mk] at h
      by_cases h2 : rmAllL (stripL (rmAllL s.toList)) = []
      · exfalso
        rw [hkey] at h2
        rw [h2] at h
        exact Option.noConfusion (h.symm.trans (show parseSigned [] = none from rfl))
      · rw [if_neg (by rw [mk_eq_empty_iff]; exact h2)]
        rw [pyFloat_mk, hkey, stripL_idem]
        exact h

/-- C9 (witness): `"2,5"` coerces to 25, and so does its separator-free
form. -/
theorem sep_strip_amended_witness :
    _to_float (some (stripSeps "2,5")) = some 25 :=
  sep_strip_amended.2 "2,5" 25 (by decide)

/-- C10. A comment create or edit whose content field is missing, empty,
or whitespace-only after stripping leaves the comments store unchanged. -/
theorem blank_comment_noop (su : Option String) (fins : List (ℕ × String))
    (cs : List Comment) (fid cid nid : ℕ) (form : Form)
    (h : pyStrip ((form "content").getD "") = "") :
    add_comment su fins cs fid form nid = cs ∧ edit_comment su cs cid form = cs := by
  constructor
  · cases su with
    | none => rfl
    | some u =>
      by_cases hf : (List.find? (fun p => p.1 == fid && p.2 == u) fins).isNone
      · simp [add_comment, hf]
      · simp [add_comment, hf, h]
  · cases su with
    | none => rfl
    | some u =>
      cases hc : List.find? (fun c => c.id == cid && c.user_id == u) cs with
      | none => simp [edit_comment, hc]
      | some c0 => simp [edit_comment, hc, h]

/-- C10 (witness): with a logged-in user and a form with no content field
at all, neither operation writes. -/
theorem blank_comment_noop_witness :
    add_comment (some "alice") [] [] 1 formEmpty 1 = [] ∧
    edit_comment (some "alice") [] 1 formEmpty = [] :=
  blank_comment_noop (some "alice") [] [] 1 1 1 formEmpty (by decide)

end FinanceApp
